import Mathlib

/-!
Verification of the CSMF serialization module of colour-specio
(src/specio/serialization/csmf.py) against its specification.

Modelling conventions:
* numpy float64 sample values are modelled as rationals (ℚ); the module's
  arithmetic (np.ptp, np.modf, comparisons with the literal 1e-8, int()
  truncation) is translated exactly over ℚ;
* the numpy arrays `test_colors`, `order` and `measurements` are modelled as
  Lean lists; numpy's element-wise `==` combined with `np.all` on equal-shaped
  arrays is modelled as structural list equality;
* the protobuf message `measurements_pb2.CSFM_File` (the generated schema is
  an external contract, not part of this repository) is modelled as a record
  `CSFM_File` with proto3 defaults (empty strings, empty repeated fields);
  the byte-level SerializeToString/ParseFromString pair is external and is
  modelled, where a claim needs it, as an abstract parser argument;
* the per-measurement codec (specio.serialization.measurements) and the
  xxHash32/byte-buffer externals are not under src/ and are modelled from the
  spec where needed, as indicated on each definition;
* the filesystem is modelled as an association list from paths (lists of
  characters) to stored wire messages; `pathlib.Path.with_suffix(".csmf")`
  is translated faithfully for canonical path strings.
-/

namespace Specio

/-- The tolerance literal 1e-8 appearing in csmf.py line 119. -/
def tol : ℚ := 1 / 100000000

/-- Truncation toward zero on ℚ: Python's int() applied to a float, and the
integral part computed by np.modf. Computed from the numerator and
denominator with natural-number division. -/
def ratTrunc (x : ℚ) : ℤ :=
  if 0 ≤ x.num then ((x.num.toNat / x.den : ℕ) : ℤ)
  else -(((-x.num).toNat / x.den : ℕ) : ℤ)

/-- The fractional part np.modf(x)[0]: x minus its integral part, carrying
the sign of x. -/
def sfrac (x : ℚ) : ℚ := x - (ratTrunc x : ℚ)

/-- Maximum of a list of rationals (np.max); numpy raises on an empty array,
the [] case below is junk and is never reached by the encoder. -/
def listMax : List ℚ → ℚ
  | [] => 0
  | x :: xs => xs.foldl max x

/-- Minimum of a list of rationals (np.min); [] case junk as in listMax. -/
def listMin : List ℚ → ℚ
  | [] => 0
  | x :: xs => xs.foldl min x

/-- np.ptp: peak-to-peak range, max minus min, over all matrix entries. -/
def listPtp (l : List ℚ) : ℚ := listMax l - listMin l

/-- The encoder's integer-mode condition, csmf.py line 119:
np.ptp(testColors) > 1 and np.all(np.modf(testColors)[0] < 1e-8),
evaluated on the flattened matrix. -/
def int_collapse (flat : List ℚ) : Prop :=
  1 < listPtp flat ∧ ∀ v ∈ flat, sfrac v < tol

instance (l : List ℚ) : Decidable (int_collapse l) :=
  inferInstanceAs (Decidable (1 < listPtp l ∧ ∀ v ∈ l, sfrac v < tol))

/-- The spec's per-entry condition: the value is within tolerance 1e-8 of some
integer. Stated from the spec's words, to be compared with the code's check. -/
def spec_near_int (v : ℚ) : Prop := ∃ n : ℤ, |v - (n : ℚ)| ≤ tol

/-- The integer-collapse condition as the spec states it (§3 invariants):
all entries within tolerance 1e-8 of an integer, and range greater than 1.
Stated from the spec's words, to be compared with int_collapse. -/
def spec_int_collapse (flat : List ℚ) : Prop :=
  1 < listPtp flat ∧ ∀ v ∈ flat, spec_near_int v

/-- CSMF_Metadata (csmf.py lines 33-42): four optional strings with the
dataclass defaults, software defaulting to the producer name. -/
structure CSMF_Metadata where
  notes : Option String := none
  author : Option String := none
  location : Option String := none
  software : Option String := some "colour-specio"
deriving DecidableEq, Repr

/-- Modelled from the spec: a single SPD measurement (specio.common, not under
src/) is an opaque composite of raw spectral sample values plus precomputed
derived colorimetric quantities; its value equality is element-wise. -/
structure SPDMeasurement where
  spd : List ℚ
  derived : List ℚ
deriving DecidableEq, Repr

/-- Modelled from the spec: the wire form of one SPD measurement (the
per-measurement sub-message of the external schema), mirroring the in-memory
composite. -/
structure SPDMeasurement_pbuf where
  spd : List ℚ
  derived : List ℚ
deriving DecidableEq, Repr

/-- CSMF_Data (csmf.py lines 45-89): test-color matrix, measurement order,
measurement list and metadata, with the dataclass defaults. -/
structure CSMF_Data where
  test_colors : List (List ℚ)
  order : List ℤ
  measurements : List SPDMeasurement := []
  metadata : CSMF_Metadata := {}
deriving DecidableEq, Repr

/-- One TestColor sub-message of the wire schema: a repeated integer field c
and a repeated floating-point field f, both defaulting to empty. -/
structure TestColor where
  c : List ℤ := []
  f : List ℚ := []
deriving DecidableEq, Repr

/-- The wire message measurements_pb2.CSFM_File (note the CSFM spelling of the
source), with proto3 defaults: empty strings and empty repeated fields. -/
structure CSFM_File where
  spd_measurements : List SPDMeasurement_pbuf := []
  notes : String := ""
  author : String := ""
  location : String := ""
  software : String := ""
  order : List ℤ := []
  test_colors : List TestColor := []
deriving DecidableEq, Repr

/-- Modelled from the spec: spd_measurement_to_proto
(specio.serialization.measurements, not under src/) — a pure, total encoding
of one measurement to its wire sub-message. -/
def spd_measurement_to_proto (m : SPDMeasurement) : SPDMeasurement_pbuf :=
  { spd := m.spd, derived := m.derived }

/-- Modelled from the spec: spd_measurement_from_bytes
(specio.serialization.measurements, not under src/) — reconstructs the
measurement; when recompute is true the derived quantities are recalculated
from the raw samples by an external colorimetric collaborator (passed here as
recomputeFn), when false the embedded values are trusted as-is. -/
def spd_measurement_from_bytes (p : SPDMeasurement_pbuf) (recompute : Bool)
    (recomputeFn : List ℚ → List ℚ) : SPDMeasurement :=
  if recompute then { spd := p.spd, derived := recomputeFn p.spd }
  else { spd := p.spd, derived := p.derived }

/-- CSMF_Data.shortname (csmf.py lines 62-74). The external composite of
colour's MultiSpectralDistributions value extraction, numpy's contiguous
byte buffer and xxhash.xxh32_hexdigest is abstracted as the digest argument,
applied to the per-measurement sample lists in measurement order. -/
def shortname (digest : List (List ℚ) → String) (ml : CSMF_Data) : String :=
  if ml.metadata.notes = none ∨ ml.metadata.notes = some "" then
    digest (ml.measurements.map (fun m => m.spd))
  else ml.metadata.notes.getD ""

/-- CSMF_Data.__eq__ (csmf.py lines 79-89): value equality of the four
components; numpy's np.all(a == b) on equal-shaped arrays is structural
equality. -/
def csmf_eq (a b : CSMF_Data) : Bool :=
  decide (a.test_colors = b.test_colors) && decide (a.order = b.order) &&
    decide (a.measurements = b.measurements) && decide (a.metadata = b.metadata)

/-- A matrix given as a list of rows is rectangular when all rows share one
length; np.asarray raises on inhomogeneous nested lists. -/
def rectangular : List (List ℚ) → Prop
  | [] => True
  | r :: rs => ∀ s ∈ rs, s.length = r.length

instance : (m : List (List ℚ)) → Decidable (rectangular m)
  | [] => .isTrue trivial
  | r :: rs => inferInstanceAs (Decidable (∀ s ∈ rs, s.length = r.length))

/-- A test-color row emitted through the integer field: csmf.py lines 121-124,
tc_buf.c[:] = [int(value) for value in color.tolist()]. -/
def intRow (color : List ℚ) : TestColor := { c := color.map ratTrunc, f := [] }

/-- A test-color row emitted through the float field: csmf.py lines 126-129,
tc_buf.f[:] = color. -/
def floatRow (color : List ℚ) : TestColor := { c := [], f := color }

/-- The assembled wire message apart from the test-color rows: measurements
in order (lines 97-99), metadata fields written only when truthy so that None
and the empty string both leave the proto3 default "" (lines 101-111, the
Python conditional assignment equals Option.getD ""), and the order list
copied verbatim (lines 113-114; ml.order is never None in the model). -/
def mkCSFMFile (ml : CSMF_Data) (tcs : List TestColor) : CSFM_File where
  spd_measurements := ml.measurements.map spd_measurement_to_proto
  notes := ml.metadata.notes.getD ""
  author := ml.metadata.author.getD ""
  location := ml.metadata.location.getD ""
  software := ml.metadata.software.getD ""
  order := ml.order
  test_colors := tcs

/-- csmf_data_to_buffer (csmf.py lines 92-130). np.asarray raises ValueError
on a ragged matrix and np.ptp raises ValueError on an empty one, modelled as
the two error cases; otherwise the whole matrix goes through the integer
field when int_collapse holds of its entries and through the float field
otherwise. -/
def csmf_data_to_buffer (ml : CSMF_Data) : Except String CSFM_File :=
  if rectangular ml.test_colors then
    if ml.test_colors.flatten = [] then
      .error "ValueError: zero-size array to reduction operation"
    else if int_collapse ml.test_colors.flatten then
      .ok (mkCSFMFile ml (ml.test_colors.map intRow))
    else
      .ok (mkCSFMFile ml (ml.test_colors.map floatRow))
  else .error "ValueError: inhomogeneous test_colors"

/-- Decoding of one test-color row (csmf.py lines 184-188): the c field is
used only when the f field has length zero. -/
def decode_test_color (tc : TestColor) : List ℚ :=
  if tc.f.length = 0 then tc.c.map (fun z : ℤ => (z : ℚ)) else tc.f

/-- The post-parse portion of load_csmf_file (csmf.py lines 178-196): rebuild
measurements, test colors, order and metadata from the parsed wire message.
The metadata constructor call CSMF_Metadata(pbuf.notes, pbuf.author,
pbuf.location, pbuf.software) receives plain strings, never None. -/
def load_csmf_data (pbuf : CSFM_File) (recompute : Bool)
    (recomputeFn : List ℚ → List ℚ) : CSMF_Data where
  test_colors := pbuf.test_colors.map decode_test_color
  order := pbuf.order
  measurements :=
    pbuf.spd_measurements.map (fun p => spd_measurement_from_bytes p recompute recomputeFn)
  metadata :=
    { notes := some pbuf.notes, author := some pbuf.author,
      location := some pbuf.location, software := some pbuf.software }

/-- The fixed file extension ".csmf" as a character list. -/
def csmfExt : List Char := ['.', 'c', 's', 'm', 'f']

/-- The final path component (pathlib name) of a canonical path string. -/
def path_name (p : List Char) : List Char :=
  (p.reverse.takeWhile (fun c => c ≠ '/')).reverse

/-- Everything before the final path component. -/
def path_dir (p : List Char) : List Char :=
  p.take (p.length - (path_name p).length)

/-- Index of the last dot of a name, if any. -/
def last_dot_idx (name : List Char) : Option Nat :=
  match name.reverse.findIdx? (fun c => c = '.') with
  | none => none
  | some j => some (name.length - 1 - j)

/-- pathlib.Path.with_suffix(".csmf") on a canonical path string: raises
(none) on an empty final component; otherwise drops the final component's
suffix — present only when the last dot sits strictly inside the name,
neither leading nor trailing — and appends ".csmf". -/
def with_suffix_csmf (p : List Char) : Option (List Char) :=
  if path_name p = [] then none
  else
    match last_dot_idx (path_name p) with
    | some i =>
      if 0 < i ∧ i < (path_name p).length - 1 then
        some (path_dir p ++ ((path_name p).take i ++ csmfExt))
      else some (path_dir p ++ (path_name p ++ csmfExt))
    | none => some (path_dir p ++ (path_name p ++ csmfExt))

/-- Decidable equality of Except values, componentwise. -/
instance {e a : Type} [DecidableEq e] [DecidableEq a] : DecidableEq (Except e a) :=
  fun x y =>
    match x, y with
    | .error u, .error v =>
      if h : u = v then .isTrue (by rw [h]) else .isFalse (fun hc => h (Except.error.inj hc))
    | .error _, .ok _ => .isFalse Except.noConfusion
    | .ok _, .error _ => .isFalse Except.noConfusion
    | .ok u, .ok v =>
      if h : u = v then .isTrue (by rw [h]) else .isFalse (fun hc => h (Except.ok.inj hc))

/-- The filesystem, modelled as an association list from paths to stored wire
messages (the byte serialization between message and file contents is the
external protobuf contract). -/
abbrev Store := List (List Char × CSFM_File)

/-- Lookup of a stored file by path. -/
def lookupStore : Store → List Char → Option CSFM_File
  | [], _ => none
  | (k, v) :: rest, q => if k = q then some v else lookupStore rest q

/-- save_csmf_file (csmf.py lines 133-148): build the wire message, normalize
the path with with_suffix(".csmf"), write, and return the normalized path. -/
def save_csmf_file (store : Store) (file : List Char) (ml : CSMF_Data) :
    Except String (List Char × Store) :=
  match csmf_data_to_buffer ml with
  | .error e => .error e
  | .ok pbuf =>
    match with_suffix_csmf file with
    | none => .error "ValueError: path has an empty name"
    | some p => .ok (p, (p, pbuf) :: store)

/-- load_csmf_file (csmf.py lines 151-196) at the filesystem level: normalize
the path with with_suffix(".csmf"), read the stored message, decode. -/
def load_csmf_file (store : Store) (file : List Char) (recompute : Bool)
    (recomputeFn : List ℚ → List ℚ) : Except String CSMF_Data :=
  match with_suffix_csmf file with
  | none => .error "ValueError: path has an empty name"
  | some p =>
    match lookupStore store p with
    | none => .error "FileNotFoundError"
    | some pbuf => .ok (load_csmf_data pbuf recompute recomputeFn)

/-- Modelled from the spec: the byte-level entry of load_csmf_file. The
protobuf ParseFromString (the generated schema code is external to this
repository) is abstracted as the parseFromString argument; parsing fails on
bytes that are not a valid message of the schema, and csmf.py lines 175-176
let that failure propagate to the caller as the MalformedFile error. -/
def load_csmf_bytes (parseFromString : List Nat → Option CSFM_File)
    (data_string : List Nat) (recompute : Bool)
    (recomputeFn : List ℚ → List ℚ) : Except String CSMF_Data :=
  match parseFromString data_string with
  | none => .error "MalformedFile"
  | some pbuf => .ok (load_csmf_data pbuf recompute recomputeFn)

/-- The trusting decode mode: recompute = false; the function passed for the
external colorimetric collaborator is then never consulted. -/
def noRecompute : List ℚ → List ℚ := fun _ => []

/-- Sample collection with a negative half-integer test color, used as the
failing input for the integer-mode check. -/
def mlNeg : CSMF_Data := { test_colors := [[0, -5/2]], order := [] }

/-- The wire message the encoder produces for mlNeg. -/
def pbNeg : CSFM_File :=
  { spd_measurements := [], notes := "", author := "", location := "",
    software := "colour-specio", order := [],
    test_colors := [{ c := [0, -2], f := [] }] }

/-- Sample collection whose test color 2.000000001 is within 1e-8 of an
integer without being one. -/
def mlNear : CSMF_Data := { test_colors := [[0, 2000000001/1000000000]], order := [] }

/-- Sample collection with exactly integer-valued test colors of range 3. -/
def mlInts : CSMF_Data := { test_colors := [[3, 0]], order := [] }

/-- The wire message the encoder produces for mlInts. -/
def pbInts : CSFM_File :=
  { spd_measurements := [], notes := "", author := "", location := "",
    software := "colour-specio", order := [],
    test_colors := [{ c := [3, 0], f := [] }] }

/-- Sample collection with fully populated string metadata and a float-mode
test-color matrix. -/
def mlGood : CSMF_Data :=
  { test_colors := [[1/2, 3/2]], order := [7],
    measurements := [{ spd := [1, 2], derived := [10] }],
    metadata := { notes := some "session", author := some "a",
                  location := some "l", software := some "s" } }

/-- The wire message the encoder produces for mlGood. -/
def pbGood : CSFM_File :=
  { spd_measurements := [{ spd := [1, 2], derived := [10] }], notes := "session",
    author := "a", location := "l", software := "s", order := [7],
    test_colors := [{ c := [], f := [1/2, 3/2] }] }

/-- Sample collection with wholly default metadata (notes is None). -/
def mlNoNotes : CSMF_Data := { test_colors := [[1/2]], order := [] }

/-- The wire message the encoder produces for mlNoNotes. -/
def pbNoNotes : CSFM_File :=
  { spd_measurements := [], notes := "", author := "", location := "",
    software := "colour-specio", order := [], test_colors := [{ c := [], f := [1/2] }] }

/-- Sample collection with three measurements and a three-element order. -/
def mlSeq : CSMF_Data :=
  { test_colors := [[1/2]], order := [5, 2, 9],
    measurements := [{ spd := [1], derived := [2] }, { spd := [3], derived := [4] },
                     { spd := [5], derived := [6] }] }

/-- The wire message the encoder produces for mlSeq. -/
def pbSeq : CSFM_File :=
  { spd_measurements := [{ spd := [1], derived := [2] }, { spd := [3], derived := [4] },
                         { spd := [5], derived := [6] }],
    notes := "", author := "", location := "", software := "colour-specio",
    order := [5, 2, 9], test_colors := [{ c := [], f := [1/2] }] }

/-- Sample collection whose metadata.software is the empty string. -/
def mlSwEmpty : CSMF_Data :=
  { test_colors := [[1/2]], order := [],
    metadata := { notes := some "n", author := none, location := none,
                  software := some "" } }

/-- The wire message the encoder produces for mlSwEmpty. -/
def pbSwEmpty : CSFM_File :=
  { spd_measurements := [], notes := "n", author := "", location := "",
    software := "", order := [], test_colors := [{ c := [], f := [1/2] }] }

/-- Sample collection whose metadata.notes is the non-empty string
"Session A". -/
def mlNotesA : CSMF_Data :=
  { test_colors := [[1]], order := [], metadata := { notes := some "Session A" } }

/-- A fixed stand-in digest function for shortname witnesses. -/
def digestW : List (List ℚ) → String := fun _ => "0a1b2c3d"

/-- A parser that rejects every byte buffer, standing in for ParseFromString
applied to bytes that are not a valid message of the schema. -/
def parseNone : List Nat → Option CSFM_File := fun _ => none

/-! Helper lemmas about the embedded operations. -/

lemma ratTrunc_intCast (n : ℤ) : ratTrunc ((n : ℤ) : ℚ) = n := by
  unfold ratTrunc
  rw [Rat.num_intCast, Rat.den_intCast]
  by_cases h : 0 ≤ n
  · rw [if_pos h]
    simp [Int.toNat_of_nonneg h]
  · rw [if_neg h]
    push_neg at h
    have h2 : 0 ≤ -n := by omega
    simp [Int.toNat_of_nonneg h2]

lemma sfrac_intCast (n : ℤ) : sfrac ((n : ℤ) : ℚ) = 0 := by
  unfold sfrac
  rw [ratTrunc_intCast]
  ring

lemma tol_pos : 0 < tol := by norm_num [tol]

lemma spd_roundtrip (m : SPDMeasurement) (fn : List ℚ → List ℚ) :
    spd_measurement_from_bytes (spd_measurement_to_proto m) false fn = m := rfl

lemma decode_floatRow (r : List ℚ) : decode_test_color (floatRow r) = r := by
  cases r with
  | nil => rfl
  | cons a t => rfl

lemma decode_intRow (r : List ℚ) (h : ∀ v ∈ r, ∃ n : ℤ, (n : ℚ) = v) :
    decode_test_color (intRow r) = r := by
  have hr : ∀ v ∈ r, ((ratTrunc v : ℤ) : ℚ) = v := by
    intro v hv
    obtain ⟨n, hn⟩ := h v hv
    rw [← hn, ratTrunc_intCast]
  calc decode_test_color (intRow r)
      = (r.map ratTrunc).map (fun z : ℤ => (z : ℚ)) := by
        unfold decode_test_color intRow
        exact if_pos rfl
    _ = r := by
        rw [List.map_map]
        have hcongr : ∀ v ∈ r, ((fun z : ℤ => (z : ℚ)) ∘ ratTrunc) v = id v := fun v hv => by
          simpa using hr v hv
        rw [List.map_congr_left hcongr, List.map_id]

lemma encode_ok_mk (ml : CSMF_Data) (pbuf : CSFM_File)
    (h : csmf_data_to_buffer ml = .ok pbuf) :
    pbuf = mkCSFMFile ml (ml.test_colors.map intRow) ∨
    pbuf = mkCSFMFile ml (ml.test_colors.map floatRow) := by
  unfold csmf_data_to_buffer at h
  split_ifs at h with hrect hemp hcol
  · injection h with h1
    exact Or.inl h1.symm
  · injection h with h1
    exact Or.inr h1.symm

lemma encode_ok_float (ml : CSMF_Data) (pbuf : CSFM_File)
    (hni : ¬ int_collapse ml.test_colors.flatten)
    (h : csmf_data_to_buffer ml = .ok pbuf) :
    pbuf = mkCSFMFile ml (ml.test_colors.map floatRow) := by
  unfold csmf_data_to_buffer at h
  split_ifs at h with hrect hemp
  injection h with h1
  exact h1.symm

lemma encode_ok_int (ml : CSMF_Data) (pbuf : CSFM_File)
    (hci : int_collapse ml.test_colors.flatten)
    (h : csmf_data_to_buffer ml = .ok pbuf) :
    pbuf = mkCSFMFile ml (ml.test_colors.map intRow) := by
  unfold csmf_data_to_buffer at h
  split_ifs at h with hrect hemp
  injection h with h1
  exact h1.symm

lemma ratTrunc_eq_floor (v : ℚ) (h : 0 ≤ v) : ratTrunc v = ⌊v⌋ := by
  have hn : 0 ≤ v.num := Rat.num_nonneg.mpr h
  unfold ratTrunc
  rw [if_pos hn, Rat.floor_def, Int.ofNat_ediv, Int.toNat_of_nonneg hn]

lemma ratTrunc_neg (v : ℚ) : ratTrunc (-v) = -(ratTrunc v) := by
  unfold ratTrunc
  rw [Rat.neg_num, Rat.neg_den]
  by_cases h : 0 ≤ v.num
  · by_cases h0 : v.num = 0
    · simp [h0]
    · have hneg : ¬ 0 ≤ -v.num := by omega
      rw [if_pos h, if_neg hneg]
      simp
  · have hpos : 0 ≤ -v.num := by omega
    rw [if_neg h, if_pos hpos]
    simp

lemma ratTrunc_dist_lt_one (v : ℚ) : |v - ((ratTrunc v : ℤ) : ℚ)| < 1 := by
  rw [abs_lt]
  rcases le_or_lt 0 v with h | h
  · rw [ratTrunc_eq_floor v h]
    have h1 := Int.floor_le v
    have h2 := Int.lt_floor_add_one v
    constructor <;> linarith
  · have hv : 0 ≤ -v := by linarith
    have e : ratTrunc v = -(ratTrunc (-v)) := by
      have := ratTrunc_neg v
      omega
    rw [e, ratTrunc_eq_floor (-v) hv]
    have h1 := Int.floor_le (-v)
    have h2 := Int.lt_floor_add_one (-v)
    push_cast
    constructor <;> linarith

lemma spec_near_int_iff (v : ℚ) :
    spec_near_int v ↔
      (|v - ((ratTrunc v - 1 : ℤ) : ℚ)| ≤ tol ∨ |v - ((ratTrunc v : ℤ) : ℚ)| ≤ tol ∨
        |v - ((ratTrunc v + 1 : ℤ) : ℚ)| ≤ tol) := by
  constructor
  · rintro ⟨n, hn⟩
    have hd := ratTrunc_dist_lt_one v
    have htol : tol < 1 := by norm_num [tol]
    have hnv : |(n : ℚ) - v| ≤ tol := by rwa [abs_sub_comm] at hn
    have hnt : |(n : ℚ) - ((ratTrunc v : ℤ) : ℚ)| < 2 := by
      calc |(n : ℚ) - ((ratTrunc v : ℤ) : ℚ)|
          = |((n : ℚ) - v) + (v - ((ratTrunc v : ℤ) : ℚ))| := by ring_nf
        _ ≤ |(n : ℚ) - v| + |v - ((ratTrunc v : ℤ) : ℚ)| := abs_add _ _
        _ < 2 := by linarith
    have hcast : ((|n - ratTrunc v| : ℤ) : ℚ) < 2 := by
      push_cast
      exact hnt
    have hz : |n - ratTrunc v| < 2 := by exact_mod_cast hcast
    rw [abs_lt] at hz
    have hca : n = ratTrunc v - 1 ∨ n = ratTrunc v ∨ n = ratTrunc v + 1 := by omega
    rcases hca with rfl | rfl | rfl
    · exact Or.inl hn
    · exact Or.inr (Or.inl hn)
    · exact Or.inr (Or.inr hn)
  · rintro (h | h | h)
    exacts [⟨_, h⟩, ⟨_, h⟩, ⟨_, h⟩]

instance (v : ℚ) : Decidable (spec_near_int v) :=
  decidable_of_iff' _ (spec_near_int_iff v)

instance (l : List ℚ) : Decidable (spec_int_collapse l) :=
  inferInstanceAs (Decidable (1 < listPtp l ∧ ∀ v ∈ l, spec_near_int v))

/-! Theorems settling the claims. -/

/-- C2: the claimed condition — integer field iff every entry is within 1e-8
of its rounded value and the range exceeds 1 — fails on the code. The matrix
[[0, -5/2]] has no entry-wise proximity to integers (−5/2 is 1/2 away from
every integer, so the claim demands the float field), yet the code's check
np.ptp > 1 and np.modf(x)[0] < 1e-8 accepts it (the signed fractional part of
−5/2 is −1/2 < 1e-8) and the encoder emits the whole matrix through the
integer field, truncating −5/2 to −2. -/
theorem c2_int_mode_check_diverges :
    decide (spec_near_int (-5/2 : ℚ)) = false ∧
    decide (int_collapse [(0 : ℚ), -5/2]) = true ∧
    csmf_data_to_buffer mlNeg = Except.ok pbNeg ∧
    pbNeg.test_colors = [{ c := [0, -2], f := [] }] :=
  ⟨by decide!, by decide!, by decide!, by decide!⟩

/-- C3 counterexample: the matrix [[0, 2000000001/1000000000]] satisfies the
claim's hypotheses — every entry within 1e-8 of an integer, range exceeding
1 — but encode-then-decode returns [[0, 2]], numerically changing the second
entry, so the values are not unchanged. -/
theorem c3_counterexample :
    decide (spec_int_collapse [(0 : ℚ), 2000000001/1000000000]) = true ∧
    (csmf_data_to_buffer mlNear).map
      (fun pb => (load_csmf_data pb false noRecompute).test_colors) =
      Except.ok [[0, 2]] ∧
    decide (([[(0 : ℚ), 2]] : List (List ℚ)) = mlNear.test_colors) = false :=
  ⟨by decide!, by decide!, by decide!⟩

/-- C3 (amended): for every collection whose test_colors entries are exactly
integer-valued and whose range exceeds 1, successful encoding carries every
row in the integer-vector wire field (float field empty) and decoding
returns the test-color matrix numerically unchanged. -/
theorem c3_exact_int_round_trip (ml : CSMF_Data) (pbuf : CSFM_File)
    (hint : ∀ v ∈ ml.test_colors.flatten, ∃ n : ℤ, (n : ℚ) = v)
    (hptp : 1 < listPtp ml.test_colors.flatten)
    (henc : csmf_data_to_buffer ml = .ok pbuf) :
    pbuf.test_colors = ml.test_colors.map intRow ∧
    (∀ tc ∈ pbuf.test_colors, tc.f = []) ∧
    ∀ (rc : Bool) (fn : List ℚ → List ℚ),
      (load_csmf_data pbuf rc fn).test_colors = ml.test_colors := by
  have hcol : int_collapse ml.test_colors.flatten := by
    refine ⟨hptp, fun v hv => ?_⟩
    obtain ⟨n, hn⟩ := hint v hv
    rw [← hn, sfrac_intCast]
    exact tol_pos
  have hpb := encode_ok_int ml pbuf hcol henc
  subst hpb
  refine ⟨rfl, ?_, ?_⟩
  · intro tc htc
    obtain ⟨r, hr, rfl⟩ := List.mem_map.mp htc
    rfl
  · intro rc fn
    show (ml.test_colors.map intRow).map decode_test_color = ml.test_colors
    rw [List.map_map]
    have hcongr : ∀ r ∈ ml.test_colors, (decode_test_color ∘ intRow) r = id r := by
      intro r hr
      show decode_test_color (intRow r) = r
      refine decode_intRow r (fun v hv => hint v ?_)
      exact List.mem_flatten.mpr ⟨r, hr, hv⟩
    rw [List.map_congr_left hcongr, List.map_id]

/-- Witness for c3_exact_int_round_trip at the integer matrix [[3, 0]]. -/
theorem c3_exact_int_round_trip_witness :
    (load_csmf_data pbInts false noRecompute).test_colors = mlInts.test_colors := by
  refine (c3_exact_int_round_trip mlInts pbInts ?_ ?_ ?_).2.2 false noRecompute
  · intro v hv
    have hv2 : v = 3 ∨ v = 0 := by
      simpa [mlInts] using hv
    rcases hv2 with rfl | rfl
    · exact ⟨3, by norm_num⟩
    · exact ⟨0, by norm_num⟩
  · decide!
  · decide!

/-- C9: decoding materializes each test-color row from the float field
whenever it is non-empty, uses the integer field only when the float field is
empty, and yields an empty row when both fields are empty. -/
theorem c9_float_field_precedence (pbuf : CSFM_File) (rc : Bool)
    (fn : List ℚ → List ℚ) :
    (load_csmf_data pbuf rc fn).test_colors =
      pbuf.test_colors.map (fun tc =>
        if tc.f = [] then tc.c.map (fun z : ℤ => (z : ℚ)) else tc.f) ∧
    decode_test_color { c := [], f := [] } = [] := by
  constructor
  · show pbuf.test_colors.map decode_test_color = _
    refine List.map_congr_left (fun tc _ => ?_)
    by_cases h : tc.f = []
    · rw [if_pos h]
      unfold decode_test_color
      rw [if_pos (by rw [h]; rfl)]
    · rw [if_neg h]
      unfold decode_test_color
      rw [if_neg (by simpa [List.length_eq_zero] using h)]
  · rfl

/-- C4: on every collection, shortname returns the digest of the
measurements' raw sample lists taken in measurement order when metadata.notes
is absent (None) or the empty string, and returns notes verbatim when notes
is a non-empty string — for every digest function standing in for the
external xxHash32-over-contiguous-float-bytes composite. -/
theorem c4_shortname_branches (digest : List (List ℚ) → String) (ml : CSMF_Data) :
    ((ml.metadata.notes = none ∨ ml.metadata.notes = some "") →
      shortname digest ml = digest (ml.measurements.map (fun m => m.spd))) ∧
    (∀ s : String, ml.metadata.notes = some s → s ≠ "" →
      shortname digest ml = s) := by
  constructor
  · intro h
    unfold shortname
    rw [if_pos h]
  · intro s hs hne
    have hcond : ¬ (ml.metadata.notes = none ∨ ml.metadata.notes = some "") := by
      rintro (h | h)
      · rw [hs] at h
        exact Option.noConfusion h
      · rw [hs] at h
        injection h with h2
        exact hne h2
    unfold shortname
    rw [if_neg hcond, hs]
    rfl

/-- Witness for c4_shortname_branches: a non-empty notes overrides the
digest; absent notes falls back to the digest. -/
theorem c4_shortname_branches_witness :
    shortname digestW mlNotesA = "Session A" ∧
    shortname digestW mlNoNotes = "0a1b2c3d" := by
  constructor
  · exact (c4_shortname_branches digestW mlNotesA).2 "Session A" rfl (by decide)
  · exact (c4_shortname_branches digestW mlNoNotes).1 (Or.inl rfl)

/-- C7: when the parser rejects a byte buffer as not a valid message of the
schema, loading surfaces the MalformedFile error to the caller and returns no
collection. -/
theorem c7_malformed_parse_error (parse : List Nat → Option CSFM_File)
    (bytes : List Nat) (rc : Bool) (fn : List ℚ → List ℚ)
    (hbad : parse bytes = none) :
    load_csmf_bytes parse bytes rc fn = Except.error "MalformedFile" := by
  unfold load_csmf_bytes
  rw [hbad]

/-- Witness for c7_malformed_parse_error on a concrete rejected buffer. -/
theorem c7_malformed_parse_error_witness :
    load_csmf_bytes parseNone [0, 255, 17] false noRecompute =
      Except.error "MalformedFile" :=
  c7_malformed_parse_error parseNone [0, 255, 17] false noRecompute rfl

/-- C5: encoding a collection whose metadata.notes is None writes no notes
field on the wire, so decoding yields notes equal to the empty string — a
present string, not None — making absence and emptiness indistinguishable
after a round trip. -/
theorem c5_none_notes_becomes_empty (ml : CSMF_Data) (pbuf : CSFM_File)
    (rc : Bool) (fn : List ℚ → List ℚ)
    (hnotes : ml.metadata.notes = none)
    (henc : csmf_data_to_buffer ml = .ok pbuf) :
    (load_csmf_data pbuf rc fn).metadata.notes = some "" ∧
    ((load_csmf_data pbuf rc fn).metadata.notes).isSome = true := by
  rcases encode_ok_mk ml pbuf henc with rfl | rfl <;>
    exact ⟨by simp [load_csmf_data, mkCSFMFile, hnotes], rfl⟩

/-- Witness for c5_none_notes_becomes_empty at a collection with wholly
default metadata. -/
theorem c5_none_notes_becomes_empty_witness :
    (load_csmf_data pbNoNotes false noRecompute).metadata.notes = some "" :=
  (c5_none_notes_becomes_empty mlNoNotes pbNoNotes false noRecompute rfl (by decide!)).1

/-- C6: whenever encoding succeeds, decoding returns the order sequence and
the measurement sequence element for element in exactly the order supplied to
the encoder, for sequences of any length. -/
theorem c6_order_preservation (ml : CSMF_Data) (pbuf : CSFM_File)
    (fn : List ℚ → List ℚ)
    (henc : csmf_data_to_buffer ml = .ok pbuf) :
    (load_csmf_data pbuf false fn).order = ml.order ∧
    (load_csmf_data pbuf false fn).measurements = ml.measurements := by
  rcases encode_ok_mk ml pbuf henc with rfl | rfl <;>
  · refine ⟨rfl, ?_⟩
    show (ml.measurements.map spd_measurement_to_proto).map
        (fun q => spd_measurement_from_bytes q false fn) = ml.measurements
    rw [List.map_map]
    have hcongr : ∀ m ∈ ml.measurements,
        ((fun q => spd_measurement_from_bytes q false fn) ∘ spd_measurement_to_proto) m
          = id m :=
      fun m _ => spd_roundtrip m fn
    rw [List.map_congr_left hcongr, List.map_id]

/-- Witness for c6_order_preservation: empty sequences and three-element
sequences round trip in order. -/
theorem c6_order_preservation_witness :
    ((load_csmf_data pbNoNotes false noRecompute).order = mlNoNotes.order ∧
      (load_csmf_data pbNoNotes false noRecompute).measurements
        = mlNoNotes.measurements) ∧
    ((load_csmf_data pbSeq false noRecompute).order = mlSeq.order ∧
      (load_csmf_data pbSeq false noRecompute).measurements = mlSeq.measurements) :=
  ⟨c6_order_preservation mlNoNotes pbNoNotes noRecompute (by decide!),
   c6_order_preservation mlSeq pbSeq noRecompute (by decide!)⟩

/-- C10: every decoded collection has metadata whose four fields are present
strings, never None; a collection saved with software None or empty decodes
with software equal to the empty string, whereas a freshly constructed
CSMF_Metadata defaults software to "colour-specio". -/
theorem c10_loaded_metadata_all_strings :
    (∀ (pbuf : CSFM_File) (rc : Bool) (fn : List ℚ → List ℚ),
      ((load_csmf_data pbuf rc fn).metadata.notes).isSome = true ∧
      ((load_csmf_data pbuf rc fn).metadata.author).isSome = true ∧
      ((load_csmf_data pbuf rc fn).metadata.location).isSome = true ∧
      ((load_csmf_data pbuf rc fn).metadata.software).isSome = true) ∧
    (∀ (ml : CSMF_Data) (pbuf : CSFM_File) (rc : Bool) (fn : List ℚ → List ℚ),
      csmf_data_to_buffer ml = .ok pbuf →
      (ml.metadata.software = none ∨ ml.metadata.software = some "") →
      (load_csmf_data pbuf rc fn).metadata.software = some "") ∧
    ({} : CSMF_Metadata).software = some "colour-specio" := by
  refine ⟨fun pbuf rc fn => ⟨rfl, rfl, rfl, rfl⟩, ?_, rfl⟩
  intro ml pbuf rc fn henc hsw
  rcases encode_ok_mk ml pbuf henc with rfl | rfl <;>
    rcases hsw with h | h <;> simp [load_csmf_data, mkCSFMFile, h]

/-- Witness for c10_loaded_metadata_all_strings at a collection saved with
software equal to the empty string. -/
theorem c10_loaded_metadata_all_strings_witness :
    (load_csmf_data pbSwEmpty false noRecompute).metadata.software = some "" :=
  c10_loaded_metadata_all_strings.2.1 mlSwEmpty pbSwEmpty false noRecompute
    (by decide!) (Or.inr rfl)

/-- C8: a successful save normalizes the supplied path by replacing its
suffix with the fixed extension ".csmf", writes under exactly that path and
returns it; load applies the same suffix replacement to the path it reads
from; the normalized path always ends in ".csmf". -/
theorem c8_suffix_normalization (file p : List Char)
    (hsuf : with_suffix_csmf file = some p) :
    (∃ t, p = t ++ csmfExt) ∧
    (∀ (store : Store) (ml : CSMF_Data) (pbuf : CSFM_File),
      csmf_data_to_buffer ml = .ok pbuf →
      save_csmf_file store file ml = .ok (p, (p, pbuf) :: store)) ∧
    (∀ (store : Store) (rc : Bool) (fn : List ℚ → List ℚ),
      load_csmf_file store file rc fn =
        match lookupStore store p with
        | none => .error "FileNotFoundError"
        | some pbuf => .ok (load_csmf_data pbuf rc fn)) := by
  refine ⟨?_, ?_, ?_⟩
  · unfold with_suffix_csmf at hsuf
    split at hsuf
    · exact Option.noConfusion hsuf
    · split at hsuf
      · split at hsuf
        · injection hsuf with h
          exact ⟨_, by rw [← h, List.append_assoc]⟩
        · injection hsuf with h
          exact ⟨_, by rw [← h, List.append_assoc]⟩
      · injection hsuf with h
        exact ⟨_, by rw [← h, List.append_assoc]⟩
  · intro store ml pbuf henc
    unfold save_csmf_file
    rw [henc, hsuf]
  · intro store rc fn
    unfold load_csmf_file
    rw [hsuf]

/-- Witness for c8_suffix_normalization: saving to "data.txt" writes
"data.csmf" and returns it; loading from "data.bin" reads "data.csmf". -/
theorem c8_suffix_normalization_witness :
    save_csmf_file [] "data.txt".toList mlNoNotes =
      .ok ("data.csmf".toList, [("data.csmf".toList, pbNoNotes)]) ∧
    load_csmf_file [("data.csmf".toList, pbNoNotes)] "data.bin".toList false
        noRecompute =
      .ok (load_csmf_data pbNoNotes false noRecompute) := by
  constructor
  · exact (c8_suffix_normalization "data.txt".toList "data.csmf".toList
      (by decide)).2.1 [] mlNoNotes pbNoNotes (by decide!)
  · have h := (c8_suffix_normalization "data.bin".toList "data.csmf".toList
      (by decide)).2.2 [("data.csmf".toList, pbNoNotes)] false noRecompute
    exact h.trans (by decide!)

/-- C1 counterexample: the collection mlNeg — default metadata with notes
None, test colors [[0, -5/2]] — does not satisfy the spec's integer-collapse
condition, yet encode-then-decode yields a collection unequal to the
original under CSMF_Data.__eq__ (notes decodes to "" and -5/2 decodes to
-2). -/
theorem c1_counterexample :
    decide (spec_int_collapse mlNeg.test_colors.flatten) = false ∧
    (csmf_data_to_buffer mlNeg).map
      (fun pb => csmf_eq (load_csmf_data pb false noRecompute) mlNeg) =
      Except.ok false :=
  ⟨by decide!, by decide!⟩

/-- C1 (amended): save-then-load returns a collection equal to the original
under CSMF_Data.__eq__, provided every metadata field is a string (not
None), the encoder succeeds (rectangular, nonempty test-color matrix), and
the matrix does not satisfy the code's integer-mode condition. -/
theorem c1_round_trip_amended (ml : CSMF_Data) (store : Store)
    (file p : List Char) (st2 : Store) (fn : List ℚ → List ℚ)
    (hnotes : ml.metadata.notes ≠ none) (hauthor : ml.metadata.author ≠ none)
    (hlocation : ml.metadata.location ≠ none)
    (hsoftware : ml.metadata.software ≠ none)
    (hcol : ¬ int_collapse ml.test_colors.flatten)
    (hsave : save_csmf_file store file ml = .ok (p, st2)) :
    ∃ d, load_csmf_file st2 file false fn = .ok d ∧ csmf_eq d ml = true := by
  obtain ⟨tc, od, ms, no, au, lo, sw⟩ := ml
  obtain ⟨ns, rfl⟩ := Option.ne_none_iff_exists'.mp hnotes
  obtain ⟨as2, rfl⟩ := Option.ne_none_iff_exists'.mp hauthor
  obtain ⟨ls, rfl⟩ := Option.ne_none_iff_exists'.mp hlocation
  obtain ⟨ss, rfl⟩ := Option.ne_none_iff_exists'.mp hsoftware
  unfold save_csmf_file at hsave
  cases henc : csmf_data_to_buffer
      ⟨tc, od, ms, ⟨some ns, some as2, some ls, some ss⟩⟩ with
  | error e =>
    rw [henc] at hsave
    exact Except.noConfusion hsave
  | ok pbuf =>
    rw [henc] at hsave
    cases hsuf : with_suffix_csmf file with
    | none =>
      rw [hsuf] at hsave
      exact Except.noConfusion hsave
    | some q =>
      rw [hsuf] at hsave
      injection hsave with hpair
      injection hpair with hq hst
      subst hq
      subst hst
      have hpb := encode_ok_float _ pbuf hcol henc
      subst hpb
      refine ⟨load_csmf_data
        (mkCSFMFile ⟨tc, od, ms, ⟨some ns, some as2, some ls, some ss⟩⟩
          (tc.map floatRow)) false fn, ?_, ?_⟩
      · unfold load_csmf_file
        rw [hsuf]
        simp [lookupStore]
      · have htc : (load_csmf_data
            (mkCSFMFile ⟨tc, od, ms, ⟨some ns, some as2, some ls, some ss⟩⟩
              (tc.map floatRow)) false fn).test_colors = tc := by
          show (tc.map floatRow).map decode_test_color = tc
          rw [List.map_map]
          have hc2 : ∀ r ∈ tc, (decode_test_color ∘ floatRow) r = id r :=
            fun r _ => decode_floatRow r
          rw [List.map_congr_left hc2, List.map_id]
        have hms : (load_csmf_data
            (mkCSFMFile ⟨tc, od, ms, ⟨some ns, some as2, some ls, some ss⟩⟩
              (tc.map floatRow)) false fn).measurements = ms := by
          show (ms.map spd_measurement_to_proto).map
            (fun q2 => spd_measurement_from_bytes q2 false fn) = ms
          rw [List.map_map]
          have hc2 : ∀ m ∈ ms,
              ((fun q2 => spd_measurement_from_bytes q2 false fn) ∘
                spd_measurement_to_proto) m = id m :=
            fun m _ => spd_roundtrip m fn
          rw [List.map_congr_left hc2, List.map_id]
        unfold csmf_eq
        rw [htc, hms]
        simp
        exact ⟨rfl, rfl⟩

/-- Witness for c1_round_trip_amended: mlGood saved to "mydata.bin" and
loaded back equal. -/
theorem c1_round_trip_amended_witness :
    load_csmf_file [("mydata.csmf".toList, pbGood)] "mydata.bin".toList false
        noRecompute =
      .ok (load_csmf_data pbGood false noRecompute) ∧
    csmf_eq (load_csmf_data pbGood false noRecompute) mlGood = true := by
  obtain ⟨d, h1, h2⟩ := c1_round_trip_amended mlGood [] "mydata.bin".toList
    "mydata.csmf".toList [("mydata.csmf".toList, pbGood)] noRecompute
    (by decide) (by decide) (by decide) (by decide) (by decide!) (by decide!)
  have h3 : load_csmf_file [("mydata.csmf".toList, pbGood)] "mydata.bin".toList
      false noRecompute = .ok (load_csmf_data pbGood false noRecompute) := by
    decide!
  have h5 := h3.symm.trans h1
  injection h5 with h4
  subst h4
  exact ⟨h3, h2⟩

end Specio
